import Mathlib

/-!
# Verification of the arXiv notification bot core

A shallow embedding, over `List Char`, of the pure logic of the repository:

* `src/src/services/arxiv_service.py` — priority-based paper selection;
* `src/src/services/ai_service.py`   — translation dispatch and AI-response parsing;
* `src/src/services/slack_service.py` — announcement deduplication from chat
  history and the notification control flow (external Slack calls are
  parameters: history/replies reads and message posts are `Except` oracles,
  and the trace of chat calls is returned explicitly);
* `src/src/utils/formatters.py`      — LaTeX-to-Slack text formatting;
* `src/src/config/settings.py` and `src/main.py` — the configuration object's
  attribute set and the modular entry point's step sequence.

Python regular expressions used by the code are embedded as explicit
backtracking matchers with the same semantics (leftmost search, greedy `\s*`,
lazy `.+?`, lookahead alternatives), specialised to the concrete patterns
appearing in the source.
-/

namespace ArxivBot

/-- Python `\s` on the inputs at hand: ASCII whitespace. -/
def isSpace (c : Char) : Bool :=
  c = ' ' || c = '\t' || c = '\n' || c = '\r' || c = '\x0b' || c = '\x0c'

/-- Python `\w` word characters: ASCII alphanumerics, underscore, and the
superscript digits produced by the formatter (which `str.isalnum`, hence
Python's `\w`, also accepts). -/
def wordChar (c : Char) : Bool :=
  c.isAlphanum || c = '_' ||
    c ∈ ['⁰', '¹', '²', '³', '⁴', '⁵', '⁶', '⁷', '⁸', '⁹']

/-- Strip a literal from the front of a list; `some rest` on success. -/
def stripPfx : List Char → List Char → Option (List Char)
  | [], s => some s
  | _ :: _, [] => none
  | l :: ls, c :: cs => if c = l then stripPfx ls cs else none

/-- Python `str.strip()`: remove leading and trailing whitespace. -/
def pyStrip (s : List Char) : List Char :=
  ((s.dropWhile isSpace).reverse.dropWhile isSpace).reverse

/-- Leftmost-position regex search: try the matcher at every start position,
returning the first success (Python `re.search`). -/
def reSearch (m : List Char → Option (List Char)) : List Char → Option (List Char)
  | [] => m []
  | c :: rest =>
    match m (c :: rest) with
    | some r => some r
    | none => reSearch m rest

/-- Lookahead `(?=\n\n|\n2\.)` of the title regex in `_parse_ai_response`. -/
def la12 (s : List Char) : Bool :=
  (stripPfx ['\n', '\n'] s).isSome || (stripPfx ['\n', '2', '.'] s).isSome

/-- Lookahead `(?=\n\n|\n3\.)` of the summary regex in `_parse_ai_response`. -/
def la23 (s : List Char) : Bool :=
  (stripPfx ['\n', '\n'] s).isSome || (stripPfx ['\n', '3', '.'] s).isSome

/-- Lazy `(.+?)(?=LA)` with `re.DOTALL`: shortest non-empty prefix after which
the lookahead `la` holds. -/
def lazyUpto (la : List Char → Bool) : List Char → Option (List Char)
  | [] => none
  | c :: rest => if la rest then some [c] else (lazyUpto la rest).map (c :: ·)

/-- Greedy `\s*` followed by `lazyUpto la`, with Python's backtracking order:
longest whitespace prefix first, then on failure shorter ones. -/
def greedyWsLazy (la : List Char → Bool) : List Char → Option (List Char)
  | [] => none
  | c :: rest =>
    if isSpace c then
      match greedyWsLazy la rest with
      | some r => some r
      | none => lazyUpto la (c :: rest)
    else lazyUpto la (c :: rest)

/-- Greedy `\s*(.+)` with `re.DOTALL` to the end of text: skip the maximal
whitespace run, falling back one character when nothing would remain. -/
def greedyWsAll : List Char → Option (List Char)
  | [] => none
  | c :: rest =>
    if isSpace c then
      match greedyWsAll rest with
      | some r => some r
      | none => some (c :: rest)
    else some (c :: rest)

/-- Greedy `\s*` and then a fixed literal (the literal begins with a
non-whitespace character, so backtracking adds nothing). -/
def wsLit (lit : List Char) (s : List Char) : Option (List Char) :=
  stripPfx lit (s.dropWhile isSpace)

/-- Anchored match of `1\.\s*日本語タイトル:\s*(.+?)(?=\n\n|\n2\.)` (DOTALL)
at the start of `s`, returning group 1. -/
def p1MatchAt (s : List Char) : Option (List Char) := do
  let r1 ← stripPfx ['1', '.'] s
  let r2 ← wsLit "日本語タイトル:".data r1
  greedyWsLazy la12 r2

/-- Anchored match of `2\.\s*日本語要約:\s*(.+?)(?=\n\n|\n3\.)` (DOTALL)
at the start of `s`, returning group 1. -/
def p2MatchAt (s : List Char) : Option (List Char) := do
  let r1 ← stripPfx ['2', '.'] s
  let r2 ← wsLit "日本語要約:".data r1
  greedyWsLazy la23 r2

/-- Anchored match of `3\.\s*重要なQ&A:\s*(.+)` (DOTALL) at the start of `s`,
returning group 1. -/
def p3MatchAt (s : List Char) : Option (List Char) := do
  let r1 ← stripPfx ['3', '.'] s
  let r2 ← wsLit "重要なQ&A:".data r1
  greedyWsAll r2

/-- Result record of the translation pipeline (`AIService` dict values). -/
structure TranslationResult where
  translated_title : List Char
  translated_summary : List Char
  key_qa : List Char
deriving DecidableEq

/-- `AIService._parse_ai_response`: three independent regex extractions with
per-section fallbacks. -/
def parse_ai_response (result : List Char) (paperTitle : List Char) : TranslationResult :=
  { translated_title :=
      match reSearch p1MatchAt result with
      | some g => pyStrip g
      | none => paperTitle
    translated_summary :=
      match reSearch p2MatchAt result with
      | some g => pyStrip g
      | none => "要約の生成に失敗しました。".data
    key_qa :=
      match reSearch p3MatchAt result with
      | some g => pyStrip g
      | none => "重要なQ&Aの生成に失敗しました。".data }

/-- Python truthiness of an optional string (`None` and `""` are falsy). -/
def truthyOpt : Option (List Char) → Bool
  | none => false
  | some s => !s.isEmpty

/-- The attributes `AIService.__init__` stores (`ai_service`,
`openai_api_key`, `gemini_api_key`); the configuration flags selecting the
backend. -/
structure AIServiceState where
  ai_service : List Char
  openai_api_key : Option (List Char)
  gemini_api_key : Option (List Char)
deriving DecidableEq

/-- Paper record as assembled by `ArxivService.fetch_arxiv_papers`. -/
structure Paper where
  id : List Char
  title : List Char
  url : List Char
  authors : List Char
  published : List Char
  summary : List Char
  pdf_url : List Char
  tag : List Char
deriving DecidableEq

/-- `AIService._translate_and_summarize_paper_openai`.  The backend call is an
oracle: `.ok text` is the response content, `.error e` an exception with
message `e` raised anywhere inside the `try` block. -/
def translate_openai (svc : AIServiceState) (oracle : Except (List Char) (List Char))
    (paper : Paper) : TranslationResult :=
  if truthyOpt svc.openai_api_key = false then
    { translated_title := paper.title
      translated_summary := "OpenAI API key is not set. Translation unavailable.".data
      key_qa := "OpenAI API key is not set. Key Q&A unavailable.".data }
  else
    match oracle with
    | .ok txt => parse_ai_response txt paper.title
    | .error e =>
      { translated_title := paper.title
        translated_summary := "翻訳・要約中にエラーが発生しました: ".data ++ e
        key_qa := "重要なQ&Aは利用できません。".data }

/-- `AIService._translate_and_summarize_paper_gemini`. -/
def translate_gemini (svc : AIServiceState) (oracle : Except (List Char) (List Char))
    (paper : Paper) : TranslationResult :=
  if truthyOpt svc.gemini_api_key = false then
    { translated_title := paper.title
      translated_summary := "Gemini API key is not set. Translation unavailable.".data
      key_qa := "Gemini API key is not set. Key Q&A unavailable.".data }
  else
    match oracle with
    | .ok txt => parse_ai_response txt paper.title
    | .error e =>
      { translated_title := paper.title
        translated_summary := "翻訳・要約中にエラーが発生しました: ".data ++ e
        key_qa := "重要なQ&Aは利用できません。".data }

/-- `AIService.translate_and_summarize_paper`: backend dispatch with the
provider-disabled fallback (original title, abstract truncated to 500
characters, fixed unavailability notice).  Total: every branch returns a
fully populated record, which models "never raises to the caller". -/
def translate_and_summarize_paper (svc : AIServiceState)
    (oracle : Except (List Char) (List Char)) (paper : Paper) : TranslationResult :=
  if svc.ai_service = "gemini".data ∧ truthyOpt svc.gemini_api_key = true then
    translate_gemini svc oracle paper
  else if svc.ai_service = "openai".data ∧ truthyOpt svc.openai_api_key = true then
    translate_openai svc oracle paper
  else
    { translated_title := paper.title
      translated_summary := paper.summary.take 500 ++ "...".data
      key_qa := "AI translation service is not available.".data }

/-! ## `src/src/utils/formatters.py` -/

/-- `_get_superscript`: digit-by-digit superscript mapping, unmapped
characters pass through. -/
def get_superscript : List Char → List Char
  | [] => []
  | c :: rest =>
    (if c = '0' then '⁰' else if c = '1' then '¹' else if c = '2' then '²'
     else if c = '3' then '³' else if c = '4' then '⁴' else if c = '5' then '⁵'
     else if c = '6' then '⁶' else if c = '7' then '⁷' else if c = '8' then '⁸'
     else if c = '9' then '⁹' else c) :: get_superscript rest

/-- Anchored match of `(\w)\^d` for a single digit `d` with superscript
`sup`; replacement `\1` followed by the superscript. -/
def caretMatchAt (d sup : Char) : List Char → Option (List Char × List Char)
  | c :: '^' :: e :: rest =>
    if wordChar c ∧ e = d then some ([c, sup], rest) else none
  | _ => none

/-- Greedy span of a character class: `(matched run, remainder)`. -/
def spanP (p : Char → Bool) : List Char → List Char × List Char
  | [] => ([], [])
  | c :: rest =>
    if p c then
      let (a, b) := spanP p rest
      (c :: a, b)
    else ([], c :: rest)

/-- Generic single-pass `re.sub` scanner: `m s` returns
`(replacement, remainder after the match)` for a match anchored at `s`.
Fuel is the input length; every match consumes at least one character. -/
def subScan (m : List Char → Option (List Char × List Char)) :
    Nat → List Char → List Char
  | _, [] => []
  | 0, s => s
  | n + 1, c :: rest =>
    match m (c :: rest) with
    | some (rep, rest') => rep ++ subScan m n rest'
    | none => c :: subScan m n rest

/-- Anchored match of `\\mathbf\{(\w+)\}\^(\d+)`, replacement
`group1 ++ superscript group2`. -/
def mathbfMatchAt (s : List Char) : Option (List Char × List Char) := do
  let r1 ← stripPfx ['\\', 'm', 'a', 't', 'h', 'b', 'f', '{'] s
  let (w, r2) := spanP wordChar r1
  if w.isEmpty then none else
  let r3 ← stripPfx ['}', '^'] r2
  let (ds, r4) := spanP Char.isDigit r3
  if ds.isEmpty then none else
  some (w ++ get_superscript ds, r4)

/-- Anchored match of `\$\{(\w+)\}\^(\d+)\$`, replacement
`group1 ++ superscript group2`. -/
def dollarBraceMatchAt (s : List Char) : Option (List Char × List Char) := do
  let r1 ← stripPfx ['$', '{'] s
  let (w, r2) := spanP wordChar r1
  if w.isEmpty then none else
  let r3 ← stripPfx ['}', '^'] r2
  let (ds, r4) := spanP Char.isDigit r3
  if ds.isEmpty then none else
  let r5 ← stripPfx ['$'] r4
  some (w ++ get_superscript ds, r5)

/-- Anchored match of `\$(\w+)\^(\d+)\$`, replacement
`group1 ++ superscript group2`. -/
def dollarSupMatchAt (s : List Char) : Option (List Char × List Char) := do
  let r1 ← stripPfx ['$'] s
  let (w, r2) := spanP wordChar r1
  if w.isEmpty then none else
  let r3 ← stripPfx ['^'] r2
  let (ds, r4) := spanP Char.isDigit r3
  if ds.isEmpty then none else
  let r5 ← stripPfx ['$'] r4
  some (w ++ get_superscript ds, r5)

/-- Anchored match of `([A-Za-z]+)-([A-Za-z]+)`; the replacement `\1-\2`
reproduces the match verbatim. -/
def hyphenMatchAt (s : List Char) : Option (List Char × List Char) :=
  let (r1, s1) := spanP Char.isAlpha s
  if r1.isEmpty then none else
  match s1 with
  | '-' :: s2 =>
    let (r2, s3) := spanP Char.isAlpha s2
    if r2.isEmpty then none else some (r1 ++ '-' :: r2, s3)
  | _ => none

/-- Lazy inner of `\$(.*?)\$` without DOTALL: shortest run of non-newline
characters up to a closing dollar. -/
def dollarInner : List Char → Option (List Char × List Char)
  | [] => none
  | '$' :: rest => some ([], rest)
  | '\n' :: _ => none
  | c :: rest => (dollarInner rest).map (fun (i, r) => (c :: i, r))

/-- Anchored match of `\$(.*?)\$`, replacement `\1` (the inner text). -/
def dollarStripMatchAt (s : List Char) : Option (List Char × List Char) := do
  let r1 ← stripPfx ['$'] s
  let (inner, r2) ← dollarInner r1
  some (inner, r2)

/-- `format_latex_for_slack`: the substitutions of the source, in order. -/
def format_latex_for_slack (text : List Char) : List Char :=
  if text.isEmpty then [] else
  let t1 := subScan (caretMatchAt '3' '³') text.length text
  let t2 := subScan (caretMatchAt '2' '²') t1.length t1
  let t3 := subScan (caretMatchAt '1' '¹') t2.length t2
  let t4 := subScan mathbfMatchAt t3.length t3
  let t5 := subScan dollarBraceMatchAt t4.length t4
  let t6 := subScan dollarSupMatchAt t5.length t5
  let t7 := subScan hyphenMatchAt t6.length t6
  subScan dollarStripMatchAt t7.length t7

/-! ## `src/src/services/slack_service.py` -/

/-- Slack API error kinds named by the spec (auth, rate limit, not-found),
plus a catch-all code: every one is a `SlackApiError`. -/
inductive SlackErr
  | authError
  | rateLimited
  | notFound
  | other (code : List Char)
deriving DecidableEq

/-- A chat message as consumed by `_get_latest_parent_paper_urls`:
`ts` is the timestamp (numeric sort key and identity), `thread_ts` the
optional thread-parent reference. -/
structure Msg where
  text : List Char
  ts : ℚ
  thread_ts : Option ℚ
deriving DecidableEq

/-- Substring containment, Python's `needle in haystack`. -/
def containsSub (needle : List Char) : List Char → Bool
  | [] => (stripPfx needle []).isSome
  | c :: rest => (stripPfx needle (c :: rest)).isSome || containsSub needle rest

/-- The fixed announcement marker `"📢 *最新のarXiv論文"`. -/
def announceMarker : List Char := "📢 *最新のarXiv論文".data

/-- Parent-message filter: contains the marker, and is not a reply
(`"thread_ts" not in m  or  m.thread_ts == m.ts`). -/
def isParentMsg (m : Msg) : Bool :=
  containsSub announceMarker m.text &&
    (m.thread_ts = none || m.thread_ts = some m.ts)

/-- First element of `parents.sort(key=float(ts), reverse=True)`: the Python
sort is stable, so this is the first message attaining the maximal
timestamp. -/
def pickLatest (m : Msg) : List Msg → Msg
  | [] => m
  | x :: rest => if m.ts < x.ts then pickLatest x rest else pickLatest m rest

/-- Token characters of the URL tail class `[^\s">]+`. -/
def urlTokenChar (c : Char) : Bool := !isSpace c && c ≠ '"' && c ≠ '>'

/-- Host characters of the class `[a-zA-Z0-9.-]`. -/
def hostChar (c : Char) : Bool := c.isAlpha || c.isDigit || c = '.' || c = '-'

/-- `/` followed by the greedy token run `[^\s">]+`. -/
def slashTok (s : List Char) : Option (List Char) :=
  match s with
  | '/' :: rest =>
    let (tk, _) := spanP urlTokenChar rest
    if tk.isEmpty then none else some ('/' :: tk)
  | _ => none

/-- Host alternation `(?:arxiv\.org|[a-zA-Z0-9.-]+)` followed by `/token+`:
the literal branch first, falling back to the greedy character class. -/
def hostSlashTok (s : List Char) : Option (List Char) :=
  (do
    let r1 ← stripPfx "arxiv.org".data s
    let tk ← slashTok r1
    some ("arxiv.org".data ++ tk)) <|>
  (do
    let (h, r1) := spanP hostChar s
    if h.isEmpty then none else
    let tk ← slashTok r1
    some (h ++ tk))

/-- `http[s]?://` followed by host and path, anchored; returns the matched
text. -/
def httpHostMatch (s : List Char) : Option (List Char) := do
  let r1 ← stripPfx "http".data s
  match r1 with
  | 's' :: r2 =>
    (do
      let r3 ← stripPfx "://".data r2
      let hp ← hostSlashTok r3
      some ("https://".data ++ hp)) <|>
    (do
      let r3 ← stripPfx "://".data r1
      let hp ← hostSlashTok r3
      some ("http://".data ++ hp))
  | _ => do
    let r3 ← stripPfx "://".data r1
    let hp ← hostSlashTok r3
    some ("http://".data ++ hp)

/-- Lazy gap `.*?` (no DOTALL: newlines excluded) up to the first position
where `httpHostMatch` succeeds; returns `(gap, matched text)`. -/
def gapHttp : List Char → Option (List Char × List Char)
  | [] => none
  | c :: rest =>
    match httpHostMatch (c :: rest) with
    | some m => some ([], m)
    | none =>
      if c = '\n' then none
      else (gapHttp rest).map (fun (g, m) => (c :: g, m))

/-- Anchored match of
`URL:.*?http[s]?://(?:arxiv\.org|[a-zA-Z0-9.-]+)/[^\s\">]+`,
returning the whole matched text (group 0). -/
def urlPat0At (s : List Char) : Option (List Char) := do
  let r ← stripPfx "URL:".data s
  let (g, m) ← gapHttp r
  some ("URL:".data ++ g ++ m)

/-- Anchored match of the extraction pattern `http[s]?://[^\s">]+`. -/
def httpTokAt (s : List Char) : Option (List Char) := do
  let r1 ← stripPfx "http".data s
  match r1 with
  | 's' :: r2 =>
    (do
      let r3 ← stripPfx "://".data r2
      let (tk, _) := spanP urlTokenChar r3
      if tk.isEmpty then none else some ("https://".data ++ tk)) <|>
    (do
      let r3 ← stripPfx "://".data r1
      let (tk, _) := spanP urlTokenChar r3
      if tk.isEmpty then none else some ("http://".data ++ tk))
  | _ => do
    let r3 ← stripPfx "://".data r1
    let (tk, _) := spanP urlTokenChar r3
    if tk.isEmpty then none else some ("http://".data ++ tk)

/-- Per-reply URL extraction: the label-anchored search, then the URL token
re-extracted from the matched text — `re.search` yields at most one match
per message. -/
def extractURL (text : List Char) : Option (List Char) := do
  let g0 ← reSearch urlPat0At text
  reSearch httpTokAt g0

/-- Chat calls performed by the notification path, in order. -/
inductive ChatCall
  | readHistory
  | readReplies (ts : ℚ)
  | postMessage (text : List Char) (thread : Option ℚ)
deriving DecidableEq

/-- Whether a chat call writes (posts a message). -/
def ChatCall.isPost : ChatCall → Bool
  | .postMessage _ _ => true
  | _ => false

/-- `SlackService._get_latest_parent_paper_urls`, with the two channel reads
as `Except` oracles; returns the extracted URL list (Python builds a `set`
of them; membership is the only operation used) together with the trace of
chat calls performed.  Any `SlackApiError` from a read is caught and yields
the empty result. -/
def getLatestParentPaperUrlsT (hist : Except SlackErr (List Msg))
    (reps : ℚ → Except SlackErr (List Msg)) : List (List Char) × List ChatCall :=
  match hist with
  | .error _ => ([], [.readHistory])
  | .ok messages =>
    match messages.filter isParentMsg with
    | [] => ([], [.readHistory])
    | m :: rest =>
      let target := pickLatest m rest
      match reps target.ts with
      | .error _ => ([], [.readHistory, .readReplies target.ts])
      | .ok replies =>
        ((replies.filter (fun r => decide (r.ts ≠ target.ts))).filterMap
            (fun r => extractURL r.text),
         [.readHistory, .readReplies target.ts])

/-- The URL set alone (the function's return value). -/
def getLatestParentPaperUrls (hist : Except SlackErr (List Msg))
    (reps : ℚ → Except SlackErr (List Msg)) : List (List Char) :=
  (getLatestParentPaperUrlsT hist reps).1

/-- The mrkdwn block text assembled in `_send_message_to_slack` (the `try`
branch; its body is total here, so the `except` fallback is unreachable). -/
def sendMessageText (svc : AIServiceState) (oracle : Except (List Char) (List Char))
    (paper : Paper) : List Char :=
  let tr := translate_and_summarize_paper svc oracle paper
  "*【タイトル】*\n".data ++ format_latex_for_slack tr.translated_title ++
  "\n\n*【原題】*\n".data ++ format_latex_for_slack paper.title ++
  "\n\n*【公開日】*\n".data ++ paper.published ++
  "\n\n*【URL】*\n".data ++ paper.url ++
  "\n\n*【重要なポイント】*\n".data ++ format_latex_for_slack tr.key_qa ++
  "\n\n*【要約】*\n".data ++ format_latex_for_slack tr.translated_summary

/-- `SlackService.notify_paper`.  External effects are oracles:
`hist`/`reps` feed the dedup read, `postParent` is the outcome of the parent
`chat_postMessage`.  Returns the boolean result together with the ordered
trace of chat calls; the reply post inside `_send_message_to_slack` is
recorded in the trace (its own failure is caught there and does not change
the result). -/
def notifyPaper (channelId : Option (List Char)) (today : List Char)
    (hist : Except SlackErr (List Msg)) (reps : ℚ → Except SlackErr (List Msg))
    (postParent : Except SlackErr ℚ) (svc : AIServiceState)
    (oracle : Except (List Char) (List Char)) (paper : Paper) :
    Bool × List ChatCall :=
  match channelId with
  | none => (false, [])
  | some _ =>
    let (urls, calls) := getLatestParentPaperUrlsT hist reps
    if paper.url ∈ urls then (false, calls)
    else
      let parentText := "📢 *最新のarXiv論文 - ".data ++ today ++ ['*']
      match postParent with
      | .error _ => (false, calls ++ [.postMessage parentText none])
      | .ok ts =>
        (true, calls ++ [.postMessage parentText none,
          .postMessage (sendMessageText svc oracle paper) (some ts)])

/-! ## `src/src/services/arxiv_service.py` -/

/-- Association-list view of the Python dict `papers_by_tag`
(keys are unique in a dict; lookup is by key). -/
def lookupTag (d : List (List Char × List Paper)) (t : List Char) : Option (List Paper) :=
  match d with
  | [] => none
  | (k, v) :: rest => if k = t then some v else lookupTag rest t

/-- `ArxivService.select_best_paper`: first tag of the priority list whose
candidate list is present and non-empty; its first paper. -/
def select_best_paper (tag_priority : List (List Char))
    (papers_by_tag : List (List Char × List Paper)) : Option Paper :=
  match tag_priority with
  | [] => none
  | t :: rest =>
    match lookupTag papers_by_tag t with
    | some (p :: _) => some p
    | _ => select_best_paper rest papers_by_tag

/-- `ArxivService.has_papers`. -/
def has_papers (papers_by_tag : List (List Char × List Paper)) : Bool :=
  papers_by_tag.any (fun kv => !kv.2.isEmpty)

/-! ## `src/src/config/settings.py` and `src/main.py` -/

/-- Python exception kinds relevant to startup. -/
inductive PyErr
  | attributeError (name : List Char)
  | valueError (msg : List Char)
deriving DecidableEq

/-- Process environment and configuration file as read by `Config`. -/
structure Env where
  slackTokenVar : Option (List Char)
  geminiKeyVar : Option (List Char)
  slackChannelsVar : Option (List Char)
  enableNotionVar : Option (List Char)
  /-- `config.json`'s `tags` entry when the file exists and has one. -/
  configJsonTags : Option (List (List Char))

/-- Python `str.split(sep)` for a single-character separator. -/
def splitOnChar (sep : Char) : List Char → List (List Char)
  | [] => [[]]
  | c :: rest =>
    match splitOnChar sep rest with
    | [] => [[c]]
    | h :: t => if c = sep then [] :: h :: t else (c :: h) :: t

/-- `Config._parse_slack_channels`. -/
def parseSlackChannels (s : List Char) : Option (List Char) :=
  if s.isEmpty then none
  else
    let pairs := splitOnChar ',' s
    let single := pairs.length = 1
    let rec go : List (List Char) → Option (List Char)
      | [] => none
      | pair :: more =>
        match splitOnChar ':' pair with
        | [key, cid] =>
          if pyStrip key = "all".data ∨ single then some (pyStrip cid) else go more
        | _ => go more
    go pairs

/-- Python `str.lower()` restricted to ASCII (the compared literal is
ASCII). -/
def pyLower (s : List Char) : List Char := s.map Char.toLower

/-- The attribute record built by `Config.__init__` via `_load_config` and
`_load_environment_variables`; these are the only attributes a `Config`
object ever has. -/
structure ConfigState where
  CONFIG_FILE : List Char
  tags : List (List Char)
  tag_priority : List (List Char)
  slack_token : Option (List Char)
  gemini_api_key : Option (List Char)
  slack_channel_id : Option (List Char)
  enable_notion : Bool
deriving DecidableEq

/-- Python attribute values (for modelling `getattr`). -/
inductive PyVal
  | str (s : List Char)
  | optStr (s : Option (List Char))
  | strList (l : List (List Char))
  | bool (b : Bool)
deriving DecidableEq

/-- Attribute lookup on a `Config` object: defined names map to their field,
anything else raises `AttributeError` (modelled as `none`). -/
def configGetAttr (c : ConfigState) (name : List Char) : Option PyVal :=
  if name = "CONFIG_FILE".data then some (.str c.CONFIG_FILE)
  else if name = "tags".data then some (.strList c.tags)
  else if name = "tag_priority".data then some (.strList c.tag_priority)
  else if name = "slack_token".data then some (.optStr c.slack_token)
  else if name = "gemini_api_key".data then some (.optStr c.gemini_api_key)
  else if name = "slack_channel_id".data then some (.optStr c.slack_channel_id)
  else if name = "enable_notion".data then some (.bool c.enable_notion)
  else none

/-- `Config.__init__`: load tags (file or default), read environment
variables, then validate (`ValueError` when the Slack token is unset or
empty). -/
def configInit (env : Env) : Except PyErr ConfigState :=
  let tags := env.configJsonTags.getD ["cs.AI".data, "cs.LG".data, "cs.CL".data]
  let st : ConfigState :=
    { CONFIG_FILE := "config.json".data
      tags := tags
      tag_priority := tags
      slack_token := env.slackTokenVar
      gemini_api_key := env.geminiKeyVar
      slack_channel_id := parseSlackChannels (env.slackChannelsVar.getD [])
      enable_notion := pyLower (env.enableNotionVar.getD "false".data) = "true".data }
  if truthyOpt st.slack_token = false then
    .error (.valueError "SLACK_TOKEN environment variable must be set.".data)
  else .ok st

/-- `AIService.__init__`'s attribute reads on the config object, in source
order (`config.ai_service`, `config.openai_api_key`, `config.gemini_api_key`);
a missing attribute raises `AttributeError`. -/
def aiServiceInitAttr (cfg : ConfigState) : Except PyErr Unit :=
  match configGetAttr cfg "ai_service".data with
  | none => .error (.attributeError "ai_service".data)
  | some _ =>
    match configGetAttr cfg "openai_api_key".data with
    | none => .error (.attributeError "openai_api_key".data)
    | some _ =>
      match configGetAttr cfg "gemini_api_key".data with
      | none => .error (.attributeError "gemini_api_key".data)
      | some _ => .ok ()

/-- `ArxivService.__init__`'s attribute reads (`config.tags`,
`config.tag_priority`). -/
def arxivServiceInitAttr (cfg : ConfigState) : Except PyErr Unit :=
  match configGetAttr cfg "tags".data with
  | none => .error (.attributeError "tags".data)
  | some _ =>
    match configGetAttr cfg "tag_priority".data with
    | none => .error (.attributeError "tag_priority".data)
    | some _ => .ok ()

/-- Pipeline steps of `main()` after service construction. -/
inductive Step
  | fetchPapers
  | selectPaper
  | notifyStep
deriving DecidableEq

/-- `main()` in `src/main.py`: construct `Config`, `ArxivService`,
`AIService`, `SlackService` in order, then run fetch → select → notify.
Returns the exception outcome and the list of pipeline steps reached. -/
def mainRun (env : Env) : Except PyErr Unit × List Step :=
  match configInit env with
  | .error e => (.error e, [])
  | .ok cfg =>
    match arxivServiceInitAttr cfg with
    | .error e => (.error e, [])
    | .ok _ =>
      match aiServiceInitAttr cfg with
      | .error e => (.error e, [])
      | .ok _ =>
        -- SlackService.__init__ reads slack_channel_id and slack_token,
        -- then the pipeline body would run.
        match configGetAttr cfg "slack_channel_id".data,
              configGetAttr cfg "slack_token".data with
        | some _, some _ => (.ok (), [.fetchPapers, .selectPaper, .notifyStep])
        | _, _ => (.error (.attributeError "slack".data), [])

/-- The rational `200.5` (= `401/2`) given by an explicit reduced fraction,
so that concrete computations with it can be evaluated by `decide`
(the scientific-notation literal `200.5 : ℚ` elaborates through an
irreducible function). -/
def halfTs : ℚ := ⟨401, 2, by decide, by decide⟩

/-- An AI response in the prompt's three-section format, with blank-line
separators (the shape requested by the prompt of
`translate_and_summarize_paper`). -/
def aiResp3 (t s q : List Char) : List Char :=
  "1. 日本語タイトル: ".data ++
    (t ++ ("\n\n2. 日本語要約: ".data ++ (s ++ ("\n\n3. 重要なQ&A:\n".data ++ q))))

/-- A response whose summary section is terminated by the end of the input
(no trailing blank line, section 3 missing). -/
def aiResp2EOF (t s : List Char) : List Char :=
  "1. 日本語タイトル: ".data ++ (t ++ ("\n\n2. 日本語要約: ".data ++ s))

/-- A response missing section 3 entirely, with the summary section still
terminated by a blank line. -/
def aiResp2 (t s : List Char) : List Char :=
  "1. 日本語タイトル: ".data ++
    (t ++ ("\n\n2. 日本語要約: ".data ++ (s ++ ['\n', '\n'])))

/-! ## Claim C1: priority-ordered selection -/

/-- C1.  For every `papers_by_tag` and priority list, `select_best_paper`
returns the head of the candidate list of the earliest prioritized tag whose
list is present and non-empty; it returns `none` iff every prioritized tag
is absent or empty; and any returned paper is stored under some tag of the
priority list (papers under unprioritized tags are never returned). -/
theorem select_best_paper_correct (prio : List (List Char))
    (d : List (List Char × List Paper)) :
    (select_best_paper prio d = none ↔
      ∀ t ∈ prio, lookupTag d t = none ∨ lookupTag d t = some []) ∧
    (∀ p, select_best_paper prio d = some p →
      ∃ pre t suf, prio = pre ++ t :: suf ∧
        (∀ t' ∈ pre, lookupTag d t' = none ∨ lookupTag d t' = some []) ∧
        ∃ rest, lookupTag d t = some (p :: rest)) ∧
    (∀ p, select_best_paper prio d = some p →
      ∃ t ∈ prio, ∃ l, lookupTag d t = some l ∧ p ∈ l) := by
  induction prio with
  | nil =>
    refine ⟨by simp [select_best_paper], ?_, ?_⟩ <;>
      intro p h <;> simp [select_best_paper] at h
  | cons t rest ih =>
    obtain ⟨ih1, ih2, ih3⟩ := ih
    rcases hl : lookupTag d t with _ | ⟨_ | ⟨q, l⟩⟩
    · -- tag absent
      have hsel : select_best_paper (t :: rest) d = select_best_paper rest d := by
        simp [select_best_paper, hl]
      refine ⟨?_, ?_, ?_⟩
      · rw [hsel, ih1]
        constructor
        · intro h t' ht'
          rcases List.mem_cons.mp ht' with rfl | h'
          · exact Or.inl hl
          · exact h t' h'
        · intro h t' ht'
          exact h t' (List.mem_cons_of_mem _ ht')
      · intro p hp
        rw [hsel] at hp
        obtain ⟨pre, t', suf, hpr, hpre, hrest⟩ := ih2 p hp
        exact ⟨t :: pre, t', suf, by simp [hpr], by
          intro x hx
          rcases List.mem_cons.mp hx with rfl | h'
          · exact Or.inl hl
          · exact hpre x h', hrest⟩
      · intro p hp
        rw [hsel] at hp
        obtain ⟨t', ht', l, hll, hpl⟩ := ih3 p hp
        exact ⟨t', List.mem_cons_of_mem _ ht', l, hll, hpl⟩
    · -- tag present but empty
      have hsel : select_best_paper (t :: rest) d = select_best_paper rest d := by
        simp [select_best_paper, hl]
      refine ⟨?_, ?_, ?_⟩
      · rw [hsel, ih1]
        constructor
        · intro h t' ht'
          rcases List.mem_cons.mp ht' with rfl | h'
          · exact Or.inr hl
          · exact h t' h'
        · intro h t' ht'
          exact h t' (List.mem_cons_of_mem _ ht')
      · intro p hp
        rw [hsel] at hp
        obtain ⟨pre, t', suf, hpr, hpre, hrest⟩ := ih2 p hp
        exact ⟨t :: pre, t', suf, by simp [hpr], by
          intro x hx
          rcases List.mem_cons.mp hx with rfl | h'
          · exact Or.inr hl
          · exact hpre x h', hrest⟩
      · intro p hp
        rw [hsel] at hp
        obtain ⟨t', ht', l, hll, hpl⟩ := ih3 p hp
        exact ⟨t', List.mem_cons_of_mem _ ht', l, hll, hpl⟩
    · -- tag present and non-empty: its head is selected
      have hsel : select_best_paper (t :: rest) d = some q := by
        simp [select_best_paper, hl]
      refine ⟨?_, ?_, ?_⟩
      · rw [hsel]
        simp only [reduceCtorEq, false_iff, not_forall]
        refine ⟨t, List.mem_cons_self t rest, ?_⟩
        simp [hl]
      · intro p hp
        rw [hsel, Option.some_inj] at hp
        subst hp
        exact ⟨[], t, rest, rfl, by simp, l, hl⟩
      · intro p hp
        rw [hsel, Option.some_inj] at hp
        subst hp
        exact ⟨t, List.mem_cons_self t rest, q :: l, hl, List.mem_cons_self q l⟩

/-- Witness for C1 at a concrete input: priority `["cs.AI", "cs.LG"]`, where
`cs.AI` has an empty list and `cs.LG` a non-empty one. -/
theorem select_best_paper_correct_witness :
    ∃ pre t suf, ["cs.AI".data, "cs.LG".data] = pre ++ t :: suf ∧
      (∀ t' ∈ pre,
        lookupTag [("cs.AI".data, []),
          ("cs.LG".data, [⟨[], "T".data, "u".data, [], [], [], [], "cs.LG".data⟩])] t' = none ∨
        lookupTag [("cs.AI".data, []),
          ("cs.LG".data, [⟨[], "T".data, "u".data, [], [], [], [], "cs.LG".data⟩])] t' = some []) ∧
      ∃ rest, lookupTag [("cs.AI".data, []),
          ("cs.LG".data, [⟨[], "T".data, "u".data, [], [], [], [], "cs.LG".data⟩])] t =
        some (⟨[], "T".data, "u".data, [], [], [], [], "cs.LG".data⟩ :: rest) :=
  (select_best_paper_correct _ _).2.1 _ (by decide)

/-! ## Claim C3: the modular pipeline cannot construct `AIService` -/

theorem configGetAttr_ai_service (cfg : ConfigState) :
    configGetAttr cfg "ai_service".data = none := by
  unfold configGetAttr
  rw [if_neg (by decide), if_neg (by decide), if_neg (by decide),
    if_neg (by decide), if_neg (by decide), if_neg (by decide),
    if_neg (by decide)]

theorem configGetAttr_tags (cfg : ConfigState) :
    configGetAttr cfg "tags".data = some (.strList cfg.tags) := by
  unfold configGetAttr
  rw [if_neg (by decide), if_pos (by decide)]

theorem configGetAttr_tag_priority (cfg : ConfigState) :
    configGetAttr cfg "tag_priority".data = some (.strList cfg.tag_priority) := by
  unfold configGetAttr
  rw [if_neg (by decide), if_neg (by decide), if_pos (by decide)]

theorem arxivServiceInitAttr_ok (cfg : ConfigState) :
    arxivServiceInitAttr cfg = .ok () := by
  unfold arxivServiceInitAttr
  rw [configGetAttr_tags, configGetAttr_tag_priority]

/-- C3.  Every successfully constructed `Config` object lacks the
`ai_service` attribute, so `AIService.__init__`'s first read raises
`AttributeError`; consequently `main()` never reaches the fetch, select or
notify steps, for any environment. -/
theorem ai_service_init_attribute_error (env : Env) :
    (∀ cfg, configInit env = .ok cfg →
      aiServiceInitAttr cfg = .error (.attributeError "ai_service".data)) ∧
    (mainRun env).2 = [] := by
  constructor
  · intro cfg _
    unfold aiServiceInitAttr
    rw [configGetAttr_ai_service]
  · unfold mainRun
    rcases h : configInit env with e | cfg
    · rfl
    · dsimp only
      rw [arxivServiceInitAttr_ok]
      dsimp only
      unfold aiServiceInitAttr
      rw [configGetAttr_ai_service]

/-- Witness for C3: a concrete environment with a Slack token set; the
constructed config object triggers the `AttributeError`. -/
theorem ai_service_init_attribute_error_witness :
    aiServiceInitAttr
      { CONFIG_FILE := "config.json".data
        tags := ["cs.AI".data, "cs.LG".data, "cs.CL".data]
        tag_priority := ["cs.AI".data, "cs.LG".data, "cs.CL".data]
        slack_token := some "xoxb-token".data
        gemini_api_key := none
        slack_channel_id := none
        enable_notion := false } =
      .error (.attributeError "ai_service".data) :=
  (ai_service_init_attribute_error
    ⟨some "xoxb-token".data, none, none, none, none⟩).1 _ (by rfl)

/-! ## Claim C4: the translation pipeline never fails the caller -/

/-- C4.  `translate_and_summarize_paper` is total (the embedding returns a
fully populated record on every path, which is how "never raises to the
caller / no field is ever null" manifests); on a backend failure of either
configured provider the result carries the original title and the Japanese
failure message; with no provider configured it returns the original title,
the abstract truncated to 500 characters, and the fixed unavailability
notice in `key_qa`. -/
theorem translate_never_fails (svc : AIServiceState) (paper : Paper)
    (e : List Char) :
    (∀ oracle, ∃ a b c,
      translate_and_summarize_paper svc oracle paper =
        { translated_title := a, translated_summary := b, key_qa := c }) ∧
    (svc.ai_service = "gemini".data ∧ truthyOpt svc.gemini_api_key = true →
      translate_and_summarize_paper svc (.error e) paper =
        { translated_title := paper.title
          translated_summary := "翻訳・要約中にエラーが発生しました: ".data ++ e
          key_qa := "重要なQ&Aは利用できません。".data }) ∧
    (svc.ai_service = "openai".data ∧ truthyOpt svc.openai_api_key = true →
      translate_and_summarize_paper svc (.error e) paper =
        { translated_title := paper.title
          translated_summary := "翻訳・要約中にエラーが発生しました: ".data ++ e
          key_qa := "重要なQ&Aは利用できません。".data }) ∧
    (¬(svc.ai_service = "gemini".data ∧ truthyOpt svc.gemini_api_key = true) →
     ¬(svc.ai_service = "openai".data ∧ truthyOpt svc.openai_api_key = true) →
      ∀ oracle, translate_and_summarize_paper svc oracle paper =
        { translated_title := paper.title
          translated_summary := paper.summary.take 500 ++ "...".data
          key_qa := "AI translation service is not available.".data }) := by
  refine ⟨fun oracle => ⟨_, _, _, rfl⟩, ?_, ?_, ?_⟩
  · rintro ⟨h1, h2⟩
    unfold translate_and_summarize_paper translate_gemini
    rw [if_pos ⟨h1, h2⟩, if_neg (by simp [h2])]
  · rintro ⟨h1, h2⟩
    have hng : ¬(svc.ai_service = "gemini".data ∧ truthyOpt svc.gemini_api_key = true) := by
      rintro ⟨hg, _⟩
      rw [h1] at hg
      exact absurd hg (by decide)
    unfold translate_and_summarize_paper translate_openai
    rw [if_neg hng, if_pos ⟨h1, h2⟩, if_neg (by simp [h2])]
  · intro hng hno oracle
    unfold translate_and_summarize_paper
    rw [if_neg hng, if_neg hno]

/-- Witness for C4: a concrete gemini-configured service, a concrete paper,
and a backend error. -/
theorem translate_never_fails_witness :
    translate_and_summarize_paper ⟨"gemini".data, none, some "k".data⟩
      (.error "boom".data)
      ⟨"1".data, "T".data, "u".data, "a".data, "d".data, "s".data, "p".data, "cs.AI".data⟩ =
      { translated_title := "T".data
        translated_summary := "翻訳・要約中にエラーが発生しました: boom".data
        key_qa := "重要なQ&Aは利用できません。".data } := by
  have h := (translate_never_fails ⟨"gemini".data, none, some "k".data⟩
    ⟨"1".data, "T".data, "u".data, "a".data, "d".data, "s".data, "p".data, "cs.AI".data⟩
    "boom".data).2.1 (by decide)
  rw [h]
  decide

/-! ## Claims C7/C9: history deduplication -/

theorem pickLatest_mem (m : Msg) (l : List Msg) :
    pickLatest m l = m ∨ pickLatest m l ∈ l := by
  induction l generalizing m with
  | nil => exact Or.inl rfl
  | cons x rest ih =>
    unfold pickLatest
    by_cases h : m.ts < x.ts
    · rw [if_pos h]
      rcases ih x with h' | h'
      · exact Or.inr (by simp [h'])
      · exact Or.inr (List.mem_cons_of_mem _ h')
    · rw [if_neg h]
      rcases ih m with h' | h'
      · exact Or.inl h'
      · exact Or.inr (List.mem_cons_of_mem _ h')

theorem pickLatest_ts_le (m : Msg) (l : List Msg) :
    ∀ x ∈ m :: l, x.ts ≤ (pickLatest m l).ts := by
  induction l generalizing m with
  | nil =>
    intro x hx
    rw [List.mem_singleton.mp hx]
    simp [pickLatest]
  | cons y rest ih =>
    intro x hx
    unfold pickLatest
    by_cases h : m.ts < y.ts
    · rw [if_pos h]
      rcases List.mem_cons.mp hx with hxm | hx'
      · rw [hxm]
        exact le_trans (le_of_lt h) (ih y y (List.mem_cons_self y rest))
      · exact ih y x hx'
    · rw [if_neg h]
      rcases List.mem_cons.mp hx with hxm | hx'
      · rw [hxm]
        exact ih m m (List.mem_cons_self m rest)
      · rcases List.mem_cons.mp hx' with hxy | hx''
        · rw [hxy]
          exact le_trans (not_lt.mp h) (ih m m (List.mem_cons_self m rest))
        · exact ih m x (List.mem_cons_of_mem _ hx'')

/-- C7.  On a channel history (the most recent ≤ 20 messages),
`_get_latest_parent_paper_urls` filters to exactly the marker-bearing
non-reply parents, returns the empty set when there are none, otherwise
scans the replies of the parent with the numerically greatest timestamp,
excluding the reply whose timestamp equals that parent's own. -/
theorem dedup_parent_selection (history : List Msg)
    (reps : ℚ → Except SlackErr (List Msg)) (_hlen : history.length ≤ 20) :
    (history.filter isParentMsg = [] →
      getLatestParentPaperUrls (.ok history) reps = []) ∧
    (∀ m rest, history.filter isParentMsg = m :: rest →
      pickLatest m rest ∈ history.filter isParentMsg ∧
      (∀ x ∈ history.filter isParentMsg, x.ts ≤ (pickLatest m rest).ts) ∧
      ∀ replies, reps (pickLatest m rest).ts = .ok replies →
        getLatestParentPaperUrls (.ok history) reps =
          (replies.filter (fun r => decide (r.ts ≠ (pickLatest m rest).ts))).filterMap
            (fun r => extractURL r.text)) := by
  constructor
  · intro h
    simp only [getLatestParentPaperUrls, getLatestParentPaperUrlsT, h]
  · intro m rest h
    refine ⟨?_, ?_, ?_⟩
    · rw [h]
      rcases pickLatest_mem m rest with h' | h'
      · rw [h']
        exact List.mem_cons_self m rest
      · exact List.mem_cons_of_mem _ h'
    · rw [h]
      exact pickLatest_ts_le m rest
    · intro replies hr
      simp only [getLatestParentPaperUrls, getLatestParentPaperUrlsT, h, hr]

/-- `halfTs` is the decimal `200.5` of the spec's scenario. -/
theorem halfTs_eq : halfTs = 200.5 := by
  rw [show halfTs = Rat.divInt 401 2 from Rat.mk'_eq_divInt, Rat.divInt_eq_div]
  norm_num

/-- Witness for C7, embedding the spec's scenario: two parent-marker
messages timestamped `100.0` and `200.5`; the one timestamped `200.5` is
selected and its echoed reply is excluded. -/
theorem dedup_parent_selection_witness :
    (pickLatest ⟨"📢 *最新のarXiv論文 - A*".data, 100, none⟩
        [⟨"📢 *最新のarXiv論文 - B*".data, halfTs, none⟩]).ts = (200.5 : ℚ) ∧
    pickLatest ⟨"📢 *最新のarXiv論文 - A*".data, 100, none⟩
        [⟨"📢 *最新のarXiv論文 - B*".data, halfTs, none⟩] ∈
      ([⟨"other".data, 300, none⟩,
        ⟨"📢 *最新のarXiv論文 - A*".data, 100, none⟩,
        ⟨"📢 *最新のarXiv論文 - B*".data, halfTs, none⟩] : List Msg).filter isParentMsg ∧
    getLatestParentPaperUrls
      (.ok [⟨"other".data, 300, none⟩,
        ⟨"📢 *最新のarXiv論文 - A*".data, 100, none⟩,
        ⟨"📢 *最新のarXiv論文 - B*".data, halfTs, none⟩])
      (fun _ => .ok
        [⟨"📢 *最新のarXiv論文 - B*".data, halfTs, some halfTs⟩,
         ⟨"URL: https://arxiv.org/abs/1234.5678".data, 201, some halfTs⟩]) =
      ["https://arxiv.org/abs/1234.5678".data] := by
  have h := (dedup_parent_selection
    [⟨"other".data, 300, none⟩,
     ⟨"📢 *最新のarXiv論文 - A*".data, 100, none⟩,
     ⟨"📢 *最新のarXiv論文 - B*".data, halfTs, none⟩]
    (fun _ => .ok
      [⟨"📢 *最新のarXiv論文 - B*".data, halfTs, some halfTs⟩,
       ⟨"URL: https://arxiv.org/abs/1234.5678".data, 201, some halfTs⟩])
    (by decide)).2
    ⟨"📢 *最新のarXiv論文 - A*".data, 100, none⟩
    [⟨"📢 *最新のarXiv論文 - B*".data, halfTs, none⟩]
    (by decide)
  refine ⟨?_, h.1, ?_⟩
  · rw [show pickLatest ⟨"📢 *最新のarXiv論文 - A*".data, 100, none⟩
        [⟨"📢 *最新のarXiv論文 - B*".data, halfTs, none⟩] =
        ⟨"📢 *最新のarXiv論文 - B*".data, halfTs, none⟩ from by decide]
    exact halfTs_eq
  · rw [h.2.2 _ rfl]
    decide

/-- C9.  Any `SlackApiError` from a channel read inside
`_get_latest_parent_paper_urls` — on the history fetch or on the replies
fetch — is caught and the function returns the empty set. -/
theorem dedup_errors_fail_open (e : SlackErr) :
    (∀ reps, getLatestParentPaperUrls (.error e) reps = []) ∧
    (∀ history m rest, history.filter isParentMsg = m :: rest →
      getLatestParentPaperUrls (.ok history) (fun _ => .error e) = []) := by
  constructor
  · intro reps
    rfl
  · intro history m rest h
    simp only [getLatestParentPaperUrls, getLatestParentPaperUrlsT, h]

/-- Witness for C9: an auth error on the history read, and a rate-limit
error on the replies read of a concrete history with one parent. -/
theorem dedup_errors_fail_open_witness :
    getLatestParentPaperUrls (.error .authError) (fun _ => .ok []) = [] ∧
    getLatestParentPaperUrls
      (.ok [⟨"📢 *最新のarXiv論文 - A*".data, 100, none⟩])
      (fun _ => .error .rateLimited) = [] :=
  ⟨(dedup_errors_fail_open .authError).1 _,
   (dedup_errors_fail_open .rateLimited).2
     [⟨"📢 *最新のarXiv論文 - A*".data, 100, none⟩]
     ⟨"📢 *最新のarXiv論文 - A*".data, 100, none⟩ [] (by decide)⟩

/-! ## Claim C2: duplicate papers are skipped without posting -/

theorem getLatestT_calls_no_post (hist : Except SlackErr (List Msg))
    (reps : ℚ → Except SlackErr (List Msg)) :
    ∀ c ∈ (getLatestParentPaperUrlsT hist reps).2, c.isPost = false := by
  intro c hc
  unfold getLatestParentPaperUrlsT at hc
  rcases hist with e | messages
  · dsimp only at hc
    simp only [List.mem_singleton] at hc
    rw [hc]
    rfl
  · dsimp only at hc
    rcases hfilter : messages.filter isParentMsg with _ | ⟨m, rest⟩ <;>
      simp only [hfilter] at hc
    · simp only [List.mem_singleton] at hc
      rw [hc]
      rfl
    · rcases hr : reps (pickLatest m rest).ts with e | replies <;>
        simp only [hr] at hc <;>
        simp only [List.mem_cons, List.mem_singleton, List.not_mem_nil, or_false] at hc <;>
        rcases hc with hc | hc <;> rw [hc] <;> rfl

/-- C2.  When the selected paper's URL is in the announced set reconstructed
from channel history, `notify_paper` returns the duplicate-skip outcome
(`False`) and its chat trace is exactly the dedup read already performed —
it contains no message post.  Hence a second pipeline run over an unchanged
source and an already-posted paper adds no chat post. -/
theorem notify_duplicate_skips (ch today : List Char)
    (hist : Except SlackErr (List Msg)) (reps : ℚ → Except SlackErr (List Msg))
    (postParent : Except SlackErr ℚ) (svc : AIServiceState)
    (oracle : Except (List Char) (List Char)) (paper : Paper)
    (hmem : paper.url ∈ getLatestParentPaperUrls hist reps) :
    notifyPaper (some ch) today hist reps postParent svc oracle paper =
      (false, (getLatestParentPaperUrlsT hist reps).2) ∧
    ∀ c ∈ (notifyPaper (some ch) today hist reps postParent svc oracle paper).2,
      c.isPost = false := by
  have heq : notifyPaper (some ch) today hist reps postParent svc oracle paper =
      (false, (getLatestParentPaperUrlsT hist reps).2) := by
    rcases hT : getLatestParentPaperUrlsT hist reps with ⟨urls, calls⟩
    have hmem' : paper.url ∈ urls := by
      unfold getLatestParentPaperUrls at hmem
      rw [hT] at hmem
      exact hmem
    unfold notifyPaper
    rw [hT]
    dsimp only
    rw [if_pos hmem']
  refine ⟨heq, ?_⟩
  rw [heq]
  exact getLatestT_calls_no_post hist reps

/-- Witness for C2: a concrete history whose latest announcement thread
already contains the paper's URL; the run skips with only the two reads. -/
theorem notify_duplicate_skips_witness :
    notifyPaper (some "C042".data) "2025-01-02".data
      (.ok [⟨"📢 *最新のarXiv論文 - 2025-01-01*".data, 100, none⟩])
      (fun _ => .ok
        [⟨"📢 *最新のarXiv論文 - 2025-01-01*".data, 100, some 100⟩,
         ⟨"🔗 *URL:* https://arxiv.org/abs/1234.5678".data, 101, some 100⟩])
      (.ok 300) ⟨"gemini".data, none, some "k".data⟩ (.ok "resp".data)
      ⟨"1234.5678".data, "T".data, "https://arxiv.org/abs/1234.5678".data,
        "A".data, "2025-01-01".data, "S".data, "P".data, "cs.AI".data⟩ =
      (false, [.readHistory, .readReplies 100]) := by
  have h := (notify_duplicate_skips "C042".data "2025-01-02".data
    (.ok [⟨"📢 *最新のarXiv論文 - 2025-01-01*".data, 100, none⟩])
    (fun _ => .ok
      [⟨"📢 *最新のarXiv論文 - 2025-01-01*".data, 100, some 100⟩,
       ⟨"🔗 *URL:* https://arxiv.org/abs/1234.5678".data, 101, some 100⟩])
    (.ok 300) ⟨"gemini".data, none, some "k".data⟩ (.ok "resp".data)
    ⟨"1234.5678".data, "T".data, "https://arxiv.org/abs/1234.5678".data,
      "A".data, "2025-01-01".data, "S".data, "P".data, "cs.AI".data⟩
    (by decide)).1
  rw [h]
  decide

/-! ## Claim C10: formatter idempotence -/

theorem stripPfx_eq_append (lit : List Char) :
    ∀ s r, stripPfx lit s = some r → s = lit ++ r := by
  induction lit with
  | nil =>
    intro s r h
    simp only [stripPfx, Option.some.injEq] at h
    simp [h]
  | cons l ls ih =>
    intro s r h
    cases s with
    | nil => simp [stripPfx] at h
    | cons c cs =>
      unfold stripPfx at h
      by_cases hc : c = l
      · rw [if_pos hc] at h
        rw [List.cons_append, ← ih cs r h, hc]
      · rw [if_neg hc] at h
        exact absurd h (by simp)

theorem spanP_append (p : Char → Bool) (s : List Char) :
    (spanP p s).1 ++ (spanP p s).2 = s := by
  induction s with
  | nil => rfl
  | cons c rest ih =>
    unfold spanP
    by_cases hp : p c
    · rw [if_pos hp]
      rcases hsp : spanP p rest with ⟨a, b⟩
      rw [hsp] at ih
      dsimp only
      dsimp only at ih
      rw [List.cons_append, ih]
    · rw [if_neg hp]
      rfl

theorem subScan_of_none (m : List Char → Option (List Char × List Char)) :
    ∀ (n : Nat) (s : List Char), (∀ t, t <:+ s → m t = none) →
      subScan m n s = s := by
  intro n
  induction n with
  | zero =>
    intro s _
    cases s <;> rfl
  | succ n ih =>
    intro s h
    cases s with
    | nil => rfl
    | cons c rest =>
      unfold subScan
      rw [h (c :: rest) (List.suffix_refl _)]
      dsimp only
      rw [ih rest (fun t ht => h t (ht.trans (List.suffix_cons c rest)))]

theorem caretMatchAt_none (d sup : Char) (t : List Char) (h : '^' ∉ t) :
    caretMatchAt d sup t = none := by
  unfold caretMatchAt
  split
  · rename_i c e rest
    exact absurd (by simp : '^' ∈ c :: '^' :: e :: rest) h
  · rfl

theorem mathbfMatchAt_none (t : List Char) (h : '^' ∉ t) :
    mathbfMatchAt t = none := by
  unfold mathbfMatchAt
  cases h1 : stripPfx ['\\', 'm', 'a', 't', 'h', 'b', 'f', '{'] t with
  | none => rfl
  | some r1 =>
    have ht : t = ['\\', 'm', 'a', 't', 'h', 'b', 'f', '{'] ++ r1 := stripPfx_eq_append _ _ _ h1
    have hr1 : '^' ∉ r1 := fun hx => h (ht ▸ List.mem_append_right _ hx)
    rcases h2 : spanP wordChar r1 with ⟨w, r2⟩
    have hr2 : '^' ∉ r2 := by
      intro hx
      apply hr1
      rw [← spanP_append wordChar r1, h2]
      exact List.mem_append_right _ hx
    simp only [Option.bind_eq_bind, Option.some_bind]
    rw [h2]
    dsimp only
    by_cases hw : w.isEmpty
    · rw [if_pos hw]
    · rw [if_neg hw]
      cases h3 : stripPfx ['}', '^'] r2 with
      | none => rfl
      | some r3 =>
        have : r2 = ['}', '^'] ++ r3 := stripPfx_eq_append _ _ _ h3
        exact absurd (this ▸ (by simp : '^' ∈ ['}', '^'] ++ r3)) hr2

theorem dollarBraceMatchAt_none (t : List Char) (h : '$' ∉ t) :
    dollarBraceMatchAt t = none := by
  unfold dollarBraceMatchAt
  cases t with
  | nil => rfl
  | cons c rest =>
    have hc : c ≠ '$' := fun e => h (e ▸ List.mem_cons_self c rest)
    rw [show stripPfx ['$', '{'] (c :: rest) = none from by
      unfold stripPfx
      rw [if_neg hc]]
    rfl

theorem dollarSupMatchAt_none (t : List Char) (h : '$' ∉ t) :
    dollarSupMatchAt t = none := by
  unfold dollarSupMatchAt
  cases t with
  | nil => rfl
  | cons c rest =>
    have hc : c ≠ '$' := fun e => h (e ▸ List.mem_cons_self c rest)
    rw [show stripPfx ['$'] (c :: rest) = none from by
      unfold stripPfx
      rw [if_neg hc]]
    rfl

theorem dollarStripMatchAt_none (t : List Char) (h : '$' ∉ t) :
    dollarStripMatchAt t = none := by
  unfold dollarStripMatchAt
  cases t with
  | nil => rfl
  | cons c rest =>
    have hc : c ≠ '$' := fun e => h (e ▸ List.mem_cons_self c rest)
    rw [show stripPfx ['$'] (c :: rest) = none from by
      unfold stripPfx
      rw [if_neg hc]]
    rfl

theorem hyphenMatchAt_eq_append (s rep rest' : List Char)
    (h : hyphenMatchAt s = some (rep, rest')) : rep ++ rest' = s := by
  unfold hyphenMatchAt at h
  rcases h1 : spanP Char.isAlpha s with ⟨r1, s1⟩
  rw [h1] at h
  dsimp only at h
  by_cases hr1 : r1.isEmpty
  · rw [if_pos hr1] at h
    exact absurd h (by simp)
  · rw [if_neg hr1] at h
    have hs : r1 ++ s1 = s := by
      have := spanP_append Char.isAlpha s
      rw [h1] at this
      exact this
    split at h
    · rename_i s2
      rcases h2 : spanP Char.isAlpha s2 with ⟨r2, s3⟩
      rw [h2] at h
      dsimp only at h
      by_cases hr2 : r2.isEmpty
      · rw [if_pos hr2] at h
        exact absurd h (by simp)
      · rw [if_neg hr2] at h
        have h23 : r2 ++ s3 = s2 := by
          have := spanP_append Char.isAlpha s2
          rw [h2] at this
          exact this
        simp only [Option.some_inj, Prod.mk.injEq] at h
        obtain ⟨hrep, hrest⟩ := h
        rw [← hrep, ← hrest, List.append_assoc, List.cons_append, h23]
        exact hs
    · exact absurd h (by simp)

theorem subScan_hyphen_id : ∀ (n : Nat) (s : List Char),
    subScan hyphenMatchAt n s = s := by
  intro n
  induction n with
  | zero =>
    intro s
    cases s <;> rfl
  | succ n ih =>
    intro s
    cases s with
    | nil => rfl
    | cons c rest =>
      unfold subScan
      cases hm : hyphenMatchAt (c :: rest) with
      | none =>
        dsimp only
        rw [ih rest]
      | some pr =>
        rcases pr with ⟨rep, rest'⟩
        dsimp only
        rw [ih rest']
        exact hyphenMatchAt_eq_append _ _ _ hm

/-- C10 (amended).  `format_latex_for_slack` is a pure function of its
input; it is not idempotent on all strings (see the counterexample), but
every string containing no caret and no dollar character — in particular
typical already-formatted output — is a fixed point, and on such strings
the formatter is therefore idempotent. -/
theorem format_latex_fixed_point (s : List Char)
    (hc : '^' ∉ s) (hd : '$' ∉ s) :
    format_latex_for_slack s = s ∧
    format_latex_for_slack (format_latex_for_slack s) = format_latex_for_slack s := by
  have hfix : format_latex_for_slack s = s := by
    unfold format_latex_for_slack
    by_cases hs : s.isEmpty
    · rw [if_pos hs, List.isEmpty_iff.mp hs]
    · rw [if_neg hs]
      have hcaret : ∀ d sup, subScan (caretMatchAt d sup) s.length s = s :=
        fun d sup => subScan_of_none _ _ _
          (fun t ht => caretMatchAt_none d sup t (fun hx => hc (ht.subset hx)))
      have hmathbf : subScan mathbfMatchAt s.length s = s :=
        subScan_of_none _ _ _
          (fun t ht => mathbfMatchAt_none t (fun hx => hc (ht.subset hx)))
      have hbrace : subScan dollarBraceMatchAt s.length s = s :=
        subScan_of_none _ _ _
          (fun t ht => dollarBraceMatchAt_none t (fun hx => hd (ht.subset hx)))
      have hsup : subScan dollarSupMatchAt s.length s = s :=
        subScan_of_none _ _ _
          (fun t ht => dollarSupMatchAt_none t (fun hx => hd (ht.subset hx)))
      have hstrip : subScan dollarStripMatchAt s.length s = s :=
        subScan_of_none _ _ _
          (fun t ht => dollarStripMatchAt_none t (fun hx => hd (ht.subset hx)))
      simp only [hcaret, hmathbf, hbrace, hsup, hstrip, subScan_hyphen_id]
  exact ⟨hfix, by rw [hfix, hfix]⟩

/-- Counterexample to C10 as stated: the formatter is not idempotent.  On
`"x^$2$"` the dollar-stripping pass manufactures `"x^2"`, which a second
application turns into `"x²"`. -/
theorem format_latex_not_idempotent :
    format_latex_for_slack (format_latex_for_slack "x^$2$".data) ≠
      format_latex_for_slack "x^$2$".data := by
  decide

/-- Witness for the amended C10 at a concrete caret- and dollar-free
string. -/
theorem format_latex_fixed_point_witness :
    format_latex_for_slack "H³ Triply-Hierarchical text".data =
      "H³ Triply-Hierarchical text".data ∧
    format_latex_for_slack (format_latex_for_slack "H³ Triply-Hierarchical text".data) =
      format_latex_for_slack "H³ Triply-Hierarchical text".data :=
  format_latex_fixed_point "H³ Triply-Hierarchical text".data (by decide) (by decide)

/-! ## Claims C5/C6: anchored section parsing -/

theorem la12_cons_false (c : Char) (s : List Char) (h : c ≠ '\n') :
    la12 (c :: s) = false := by
  unfold la12
  rw [show stripPfx ['\n', '\n'] (c :: s) = none from by
      unfold stripPfx; rw [if_neg h],
    show stripPfx ['\n', '2', '.'] (c :: s) = none from by
      unfold stripPfx; rw [if_neg h]]
  rfl

theorem la23_cons_false (c : Char) (s : List Char) (h : c ≠ '\n') :
    la23 (c :: s) = false := by
  unfold la23
  rw [show stripPfx ['\n', '\n'] (c :: s) = none from by
      unfold stripPfx; rw [if_neg h],
    show stripPfx ['\n', '3', '.'] (c :: s) = none from by
      unfold stripPfx; rw [if_neg h]]
  rfl

/-- The lazy `(.+?)(?=la)` match consumes exactly a newline-free non-empty
block `t` when the lookahead holds right after it. -/
theorem lazyUpto_append (la : List Char → Bool)
    (hla : ∀ c s, c ≠ '\n' → la (c :: s) = false) :
    ∀ (t rest : List Char), t ≠ [] → '\n' ∉ t → la rest = true →
      lazyUpto la (t ++ rest) = some t := by
  intro t
  induction t with
  | nil => intro rest h _ _; exact absurd rfl h
  | cons c t' ih =>
    intro rest _ hnl hrest
    cases t' with
    | nil =>
      show lazyUpto la (c :: rest) = some [c]
      unfold lazyUpto
      rw [hrest]
      rfl
    | cons d t'' =>
      show lazyUpto la (c :: (d :: (t'' ++ rest))) = some (c :: d :: t'')
      unfold lazyUpto
      rw [show la (d :: (t'' ++ rest)) = false from
          hla d _ (fun e => hnl (by rw [e]; simp)),
        show lazyUpto la (d :: (t'' ++ rest)) = some (d :: t'') from
          ih rest (by simp) (fun hx => hnl (List.mem_cons_of_mem _ hx)) hrest]
      rfl

/-- With no lookahead hit anywhere (no newline up to the end of input), the
lazy match fails. -/
theorem lazyUpto_none (la : List Char → Bool)
    (hla : ∀ c s, c ≠ '\n' → la (c :: s) = false) (hla0 : la [] = false) :
    ∀ x : List Char, '\n' ∉ x → lazyUpto la x = none := by
  intro x
  induction x with
  | nil => intro _; rfl
  | cons c x' ih =>
    intro hnl
    unfold lazyUpto
    rw [show la x' = false from by
        cases x' with
        | nil => exact hla0
        | cons d x'' => exact hla d _ (fun e => hnl (by rw [e]; simp)),
      ih (fun hx => hnl (List.mem_cons_of_mem _ hx))]
    rfl

theorem greedyWsLazy_nonspace (la : List Char → Bool) (c : Char)
    (s : List Char) (hc : isSpace c = false) :
    greedyWsLazy la (c :: s) = lazyUpto la (c :: s) := by
  unfold greedyWsLazy
  rw [hc]
  rfl

theorem greedyWsLazy_space_some (la : List Char → Bool) (c : Char)
    (s r : List Char) (hc : isSpace c = true)
    (h : greedyWsLazy la s = some r) :
    greedyWsLazy la (c :: s) = some r := by
  unfold greedyWsLazy
  rw [hc, h]
  rfl

theorem greedyWsLazy_none (la : List Char → Bool)
    (hla : ∀ c s, c ≠ '\n' → la (c :: s) = false) (hla0 : la [] = false) :
    ∀ x : List Char, '\n' ∉ x → greedyWsLazy la x = none := by
  intro x
  induction x with
  | nil => intro _; rfl
  | cons c x' ih =>
    intro hnl
    have hx' : '\n' ∉ x' := fun hx => hnl (List.mem_cons_of_mem _ hx)
    unfold greedyWsLazy
    by_cases hc : isSpace c
    · rw [hc, ih hx', lazyUpto_none la hla hla0 _ hnl]
      rfl
    · rw [eq_false_of_ne_true hc, lazyUpto_none la hla hla0 _ hnl]
      rfl

theorem greedyWsAll_nonspace (c : Char) (s : List Char)
    (hc : isSpace c = false) : greedyWsAll (c :: s) = some (c :: s) := by
  unfold greedyWsAll
  rw [hc]
  rfl

theorem reSearch_of_matchAt (m : List Char → Option (List Char))
    (s r : List Char) (h : m s = some r) : reSearch m s = some r := by
  cases s with
  | nil => rw [reSearch, h]
  | cons c rest => rw [reSearch, h]

theorem reSearch_append_guard (m : List Char → Option (List Char)) (g : Char)
    (hm : ∀ c s, c ≠ g → m (c :: s) = none) :
    ∀ (pre rest : List Char), g ∉ pre →
      reSearch m (pre ++ rest) = reSearch m rest := by
  intro pre
  induction pre with
  | nil => intro rest _; rfl
  | cons c pre' ih =>
    intro rest hg
    rw [List.cons_append, reSearch,
      hm c _ (fun e => hg (by rw [e]; simp))]
    exact ih rest (fun hx => hg (List.mem_cons_of_mem _ hx))

theorem reSearch_none_guard (m : List Char → Option (List Char)) (g : Char)
    (hm : ∀ c s, c ≠ g → m (c :: s) = none) (hm0 : m [] = none)
    (s : List Char) (hs : g ∉ s) : reSearch m s = none := by
  have h := reSearch_append_guard m g hm s [] hs
  rw [List.append_nil] at h
  rw [h, reSearch, hm0]

theorem p1MatchAt_guard (c : Char) (s : List Char) (h : c ≠ '1') :
    p1MatchAt (c :: s) = none := by
  unfold p1MatchAt
  rw [show stripPfx ['1', '.'] (c :: s) = none from by
    unfold stripPfx; rw [if_neg h]]
  rfl

theorem p2MatchAt_guard (c : Char) (s : List Char) (h : c ≠ '2') :
    p2MatchAt (c :: s) = none := by
  unfold p2MatchAt
  rw [show stripPfx ['2', '.'] (c :: s) = none from by
    unfold stripPfx; rw [if_neg h]]
  rfl

theorem p3MatchAt_guard (c : Char) (s : List Char) (h : c ≠ '3') :
    p3MatchAt (c :: s) = none := by
  unfold p3MatchAt
  rw [show stripPfx ['3', '.'] (c :: s) = none from by
    unfold stripPfx; rw [if_neg h]]
  rfl

theorem pyStrip_eq_self (t : List Char) (ht : t ≠ [])
    (h1 : isSpace (t.headD 'x') = false)
    (h2 : isSpace (t.getLastD 'x') = false) : pyStrip t = t := by
  cases t with
  | nil => exact absurd rfl ht
  | cons c t' =>
    rw [List.headD_cons] at h1
    unfold pyStrip
    rw [List.dropWhile_cons, if_neg (by rw [h1]; exact Bool.false_ne_true)]
    rcases hrev : (c :: t').reverse with _ | ⟨d, r'⟩
    · exact absurd hrev (by simp)
    · have hd : (c :: t').getLastD 'x' = d := by
        rw [List.getLastD_eq_getLast?, ← List.head?_reverse, hrev]
        rfl
      rw [hd] at h2
      rw [List.dropWhile_cons,
        if_neg (by rw [h2]; exact Bool.false_ne_true), ← hrev,
        List.reverse_reverse]

theorem reSearch_cons_none (m : List Char → Option (List Char)) (c : Char)
    (rest : List Char) (h : m (c :: rest) = none) :
    reSearch m (c :: rest) = reSearch m rest := by
  rw [reSearch, h]

theorem greedyWsAll_space_step (c : Char) (x r : List Char)
    (hc : isSpace c = true) (h : greedyWsAll x = some r) :
    greedyWsAll (c :: x) = some r := by
  conv_lhs => rw [greedyWsAll]
  rw [hc, h]
  rfl

/-- The title pattern matches a block `t` terminated by the lookahead. -/
theorem p1MatchAt_family (t rest : List Char) (ht : t ≠ []) (hnl : '\n' ∉ t)
    (hhead : isSpace (t.headD 'x') = false) (hla : la12 rest = true) :
    p1MatchAt ("1. 日本語タイトル: ".data ++ (t ++ rest)) = some t := by
  have hg : greedyWsLazy la12 (t ++ rest) = some t := by
    cases t with
    | nil => exact absurd rfl ht
    | cons c t' =>
      rw [List.headD_cons] at hhead
      rw [show (c :: t') ++ rest = c :: (t' ++ rest) from rfl,
        greedyWsLazy_nonspace la12 c _ hhead]
      exact lazyUpto_append la12 la12_cons_false (c :: t') rest ht hnl hla
  unfold p1MatchAt
  rw [show stripPfx ['1', '.'] ("1. 日本語タイトル: ".data ++ (t ++ rest)) =
      some (" 日本語タイトル: ".data ++ (t ++ rest)) from rfl]
  simp only [Option.bind_eq_bind, Option.some_bind]
  rw [show wsLit "日本語タイトル:".data (" 日本語タイトル: ".data ++ (t ++ rest)) =
      some (' ' :: (t ++ rest)) from rfl]
  simp only [Option.some_bind]
  exact greedyWsLazy_space_some la12 ' ' _ t rfl hg

/-- The summary pattern matches a block `s` terminated by the lookahead. -/
theorem p2MatchAt_family (s rest : List Char) (hs : s ≠ []) (hnl : '\n' ∉ s)
    (hhead : isSpace (s.headD 'x') = false) (hla : la23 rest = true) :
    p2MatchAt ("2. 日本語要約: ".data ++ (s ++ rest)) = some s := by
  have hg : greedyWsLazy la23 (s ++ rest) = some s := by
    cases s with
    | nil => exact absurd rfl hs
    | cons c s' =>
      rw [List.headD_cons] at hhead
      rw [show (c :: s') ++ rest = c :: (s' ++ rest) from rfl,
        greedyWsLazy_nonspace la23 c _ hhead]
      exact lazyUpto_append la23 la23_cons_false (c :: s') rest hs hnl hla
  unfold p2MatchAt
  rw [show stripPfx ['2', '.'] ("2. 日本語要約: ".data ++ (s ++ rest)) =
      some (" 日本語要約: ".data ++ (s ++ rest)) from rfl]
  simp only [Option.bind_eq_bind, Option.some_bind]
  rw [show wsLit "日本語要約:".data (" 日本語要約: ".data ++ (s ++ rest)) =
      some (' ' :: (s ++ rest)) from rfl]
  simp only [Option.some_bind]
  exact greedyWsLazy_space_some la23 ' ' _ s rfl hg

/-- The summary pattern fails on a section terminated by end of input:
its lookahead requires a blank line or a following section header. -/
theorem p2MatchAt_eof (s : List Char) (hnl : '\n' ∉ s) :
    p2MatchAt ("2. 日本語要約: ".data ++ s) = none := by
  unfold p2MatchAt
  rw [show stripPfx ['2', '.'] ("2. 日本語要約: ".data ++ s) =
      some (" 日本語要約: ".data ++ s) from rfl]
  simp only [Option.bind_eq_bind, Option.some_bind]
  rw [show wsLit "日本語要約:".data (" 日本語要約: ".data ++ s) =
      some (' ' :: s) from rfl]
  simp only [Option.some_bind]
  exact greedyWsLazy_none la23 la23_cons_false rfl (' ' :: s) (by
    intro hx
    rcases List.mem_cons.mp hx with h | h
    · exact absurd h (by decide)
    · exact hnl h)

/-- The Q&A pattern takes everything to the end of the text. -/
theorem p3MatchAt_family (q : List Char) (hq : q ≠ [])
    (hhead : isSpace (q.headD 'x') = false) :
    p3MatchAt ("3. 重要なQ&A:\n".data ++ q) = some q := by
  unfold p3MatchAt
  rw [show stripPfx ['3', '.'] ("3. 重要なQ&A:\n".data ++ q) =
      some (" 重要なQ&A:\n".data ++ q) from rfl]
  simp only [Option.bind_eq_bind, Option.some_bind]
  rw [show wsLit "重要なQ&A:".data (" 重要なQ&A:\n".data ++ q) =
      some ('\n' :: q) from rfl]
  simp only [Option.some_bind]
  cases q with
  | nil => exact absurd rfl hq
  | cons c q' =>
    rw [List.headD_cons] at hhead
    exact greedyWsAll_space_step '\n' (c :: q') (c :: q') rfl
      (greedyWsAll_nonspace c q' hhead)

/-- C5 (amended).  `_parse_ai_response` extracts each section by anchored
matching, but sections 1 and 2 require a following blank line or
next-section header: in the three-section blank-line-separated format every
section is extracted verbatim (section 3's content legitimately runs to the
end of the text), while a response whose section 2 is terminated by the end
of the input falls back for the summary instead of yielding its content. -/
theorem parse_section_boundaries (t s q pt : List Char)
    (ht : t ≠ []) (hnlt : '\n' ∉ t) (h2t : '2' ∉ t) (h3t : '3' ∉ t)
    (hht : isSpace (t.headD 'x') = false) (hlt : isSpace (t.getLastD 'x') = false)
    (hs : s ≠ []) (hnls : '\n' ∉ s) (h2s : '2' ∉ s) (h3s : '3' ∉ s)
    (hhs : isSpace (s.headD 'x') = false) (hls : isSpace (s.getLastD 'x') = false)
    (hq : q ≠ []) (hhq : isSpace (q.headD 'x') = false)
    (hlq : isSpace (q.getLastD 'x') = false) :
    parse_ai_response (aiResp3 t s q) pt =
      { translated_title := t, translated_summary := s, key_qa := q } ∧
    parse_ai_response (aiResp2EOF t s) pt =
      { translated_title := t
        translated_summary := "要約の生成に失敗しました。".data
        key_qa := "重要なQ&Aの生成に失敗しました。".data } := by
  have hpre2 : '2' ∉ "1. 日本語タイトル: ".data ++ (t ++ ['\n', '\n']) := by
    intro hx
    rcases List.mem_append.mp hx with h | h
    · exact absurd h (by decide)
    · rcases List.mem_append.mp h with h | h
      · exact h2t h
      · exact absurd h (by decide)
  constructor
  · -- three-section response
    have htitle : reSearch p1MatchAt (aiResp3 t s q) = some t := by
      unfold aiResp3
      exact reSearch_of_matchAt _ _ _
        (p1MatchAt_family t _ ht hnlt hht (by rfl))
    have hsum : reSearch p2MatchAt (aiResp3 t s q) = some s := by
      have hsplit : aiResp3 t s q =
          ("1. 日本語タイトル: ".data ++ (t ++ ['\n', '\n'])) ++
            ("2. 日本語要約: ".data ++
              (s ++ ("\n\n3. 重要なQ&A:\n".data ++ q))) := by
        unfold aiResp3
        rw [show ("\n\n2. 日本語要約: ".data : List Char) =
            ['\n', '\n'] ++ "2. 日本語要約: ".data from rfl]
        simp [List.append_assoc]
      rw [hsplit, reSearch_append_guard p2MatchAt '2' p2MatchAt_guard _ _ hpre2]
      exact reSearch_of_matchAt _ _ _
        (p2MatchAt_family s _ hs hnls hhs (by rfl))
    have hqa : reSearch p3MatchAt (aiResp3 t s q) = some q := by
      have hsplit : aiResp3 t s q =
          ("1. 日本語タイトル: ".data ++
            (t ++ ("\n\n2. 日本語要約: ".data ++ (s ++ ['\n', '\n'])))) ++
            ("3. 重要なQ&A:\n".data ++ q) := by
        unfold aiResp3
        rw [show ("\n\n3. 重要なQ&A:\n".data : List Char) =
            ['\n', '\n'] ++ "3. 重要なQ&A:\n".data from rfl]
        simp [List.append_assoc]
      have hpre3 : '3' ∉ "1. 日本語タイトル: ".data ++
          (t ++ ("\n\n2. 日本語要約: ".data ++ (s ++ ['\n', '\n']))) := by
        intro hx
        rcases List.mem_append.mp hx with h | h
        · exact absurd h (by decide)
        · rcases List.mem_append.mp h with h | h
          · exact h3t h
          · rcases List.mem_append.mp h with h | h
            · exact absurd h (by decide)
            · rcases List.mem_append.mp h with h | h
              · exact h3s h
              · exact absurd h (by decide)
      rw [hsplit, reSearch_append_guard p3MatchAt '3' p3MatchAt_guard _ _ hpre3]
      exact reSearch_of_matchAt _ _ _ (p3MatchAt_family q hq hhq)
    unfold parse_ai_response
    rw [htitle, hsum, hqa]
    simp only [pyStrip_eq_self t ht hht hlt, pyStrip_eq_self s hs hhs hls,
      pyStrip_eq_self q hq hhq hlq]
  · -- summary terminated by end of input
    have htitle : reSearch p1MatchAt (aiResp2EOF t s) = some t := by
      unfold aiResp2EOF
      exact reSearch_of_matchAt _ _ _
        (p1MatchAt_family t _ ht hnlt hht (by rfl))
    have hsum : reSearch p2MatchAt (aiResp2EOF t s) = none := by
      have hsplit : aiResp2EOF t s =
          ("1. 日本語タイトル: ".data ++ (t ++ ['\n', '\n'])) ++
            ("2. 日本語要約: ".data ++ s) := by
        unfold aiResp2EOF
        rw [show ("\n\n2. 日本語要約: ".data : List Char) =
            ['\n', '\n'] ++ "2. 日本語要約: ".data from rfl]
        simp [List.append_assoc]
      rw [hsplit, reSearch_append_guard p2MatchAt '2' p2MatchAt_guard _ _ hpre2]
      have hstep := reSearch_cons_none p2MatchAt '2'
        (". 日本語要約: ".data ++ s) (p2MatchAt_eof s hnls)
      rw [show ("2. 日本語要約: ".data ++ s : List Char) =
          '2' :: (". 日本語要約: ".data ++ s) from rfl, hstep]
      refine reSearch_none_guard p2MatchAt '2' p2MatchAt_guard rfl _ ?_
      intro hx
      rcases List.mem_append.mp hx with h | h
      · exact absurd h (by decide)
      · exact h2s h
    have hqa : reSearch p3MatchAt (aiResp2EOF t s) = none := by
      refine reSearch_none_guard p3MatchAt '3' p3MatchAt_guard rfl _ ?_
      unfold aiResp2EOF
      intro hx
      rcases List.mem_append.mp hx with h | h
      · exact absurd h (by decide)
      · rcases List.mem_append.mp h with h | h
        · exact h3t h
        · rcases List.mem_append.mp h with h | h
          · exact absurd h (by decide)
          · exact h3s h
    unfold parse_ai_response
    rw [htitle, hsum, hqa]
    simp only [pyStrip_eq_self t ht hht hlt]

/-- Counterexample to C5 as stated: a response whose section 1 is terminated
by the end of the input does not yield that content — the title falls back
to the paper's original title. -/
theorem parse_eof_title_lost :
    (parse_ai_response "1. 日本語タイトル: X".data "ORIG".data).translated_title ≠
        "X".data ∧
    (parse_ai_response "1. 日本語タイトル: X".data "ORIG".data).translated_title =
        "ORIG".data := by
  constructor
  · decide
  · decide

/-- Witness for the amended C5 at concrete section contents. -/
theorem parse_section_boundaries_witness :
    parse_ai_response (aiResp3 "X".data "Y".data "Q1: Z".data) "PT".data =
      { translated_title := "X".data, translated_summary := "Y".data
        key_qa := "Q1: Z".data } ∧
    parse_ai_response (aiResp2EOF "X".data "Y".data) "PT".data =
      { translated_title := "X".data
        translated_summary := "要約の生成に失敗しました。".data
        key_qa := "重要なQ&Aの生成に失敗しました。".data } :=
  parse_section_boundaries "X".data "Y".data "Q1: Z".data "PT".data
    (by decide) (by decide) (by decide) (by decide) (by decide) (by decide)
    (by decide) (by decide) (by decide) (by decide) (by decide) (by decide)
    (by decide) (by decide) (by decide)

/-- C6.  A response missing section 3 entirely still parses sections 1 and 2
normally, and only `key_qa` is replaced by its fixed fallback string;
dually, a concrete response missing section 1 falls back only for the
title. -/
theorem parse_missing_section (t s pt : List Char)
    (ht : t ≠ []) (hnlt : '\n' ∉ t) (h2t : '2' ∉ t) (h3t : '3' ∉ t)
    (hht : isSpace (t.headD 'x') = false) (hlt : isSpace (t.getLastD 'x') = false)
    (hs : s ≠ []) (hnls : '\n' ∉ s) (h3s : '3' ∉ s)
    (hhs : isSpace (s.headD 'x') = false) (hls : isSpace (s.getLastD 'x') = false) :
    parse_ai_response (aiResp2 t s) pt =
      { translated_title := t, translated_summary := s
        key_qa := "重要なQ&Aの生成に失敗しました。".data } ∧
    parse_ai_response "2. 日本語要約: Y\n\n3. 重要なQ&A:\nQ1: Z".data "PT".data =
      { translated_title := "PT".data, translated_summary := "Y".data
        key_qa := "Q1: Z".data } := by
  constructor
  · have htitle : reSearch p1MatchAt (aiResp2 t s) = some t := by
      unfold aiResp2
      exact reSearch_of_matchAt _ _ _
        (p1MatchAt_family t _ ht hnlt hht (by rfl))
    have hsum : reSearch p2MatchAt (aiResp2 t s) = some s := by
      have hsplit : aiResp2 t s =
          ("1. 日本語タイトル: ".data ++ (t ++ ['\n', '\n'])) ++
            ("2. 日本語要約: ".data ++ (s ++ ['\n', '\n'])) := by
        unfold aiResp2
        rw [show ("\n\n2. 日本語要約: ".data : List Char) =
            ['\n', '\n'] ++ "2. 日本語要約: ".data from rfl]
        simp [List.append_assoc]
      rw [hsplit]
      rw [reSearch_append_guard p2MatchAt '2' p2MatchAt_guard _ _ (by
        intro hx
        rcases List.mem_append.mp hx with h | h
        · exact absurd h (by decide)
        · rcases List.mem_append.mp h with h | h
          · exact h2t h
          · exact absurd h (by decide))]
      exact reSearch_of_matchAt _ _ _
        (p2MatchAt_family s _ hs hnls hhs (by rfl))
    have hqa : reSearch p3MatchAt (aiResp2 t s) = none := by
      refine reSearch_none_guard p3MatchAt '3' p3MatchAt_guard rfl _ ?_
      unfold aiResp2
      intro hx
      rcases List.mem_append.mp hx with h | h
      · exact absurd h (by decide)
      · rcases List.mem_append.mp h with h | h
        · exact h3t h
        · rcases List.mem_append.mp h with h | h
          · exact absurd h (by decide)
          · rcases List.mem_append.mp h with h | h
            · exact h3s h
            · exact absurd h (by decide)
    unfold parse_ai_response
    rw [htitle, hsum, hqa]
    simp only [pyStrip_eq_self t ht hht hlt, pyStrip_eq_self s hs hhs hls]
  · decide

/-- Witness for C6 at concrete section contents. -/
theorem parse_missing_section_witness :
    parse_ai_response (aiResp2 "X".data "Y".data) "PT".data =
      { translated_title := "X".data, translated_summary := "Y".data
        key_qa := "重要なQ&Aの生成に失敗しました。".data } ∧
    parse_ai_response "2. 日本語要約: Y\n\n3. 重要なQ&A:\nQ1: Z".data "PT".data =
      { translated_title := "PT".data, translated_summary := "Y".data
        key_qa := "Q1: Z".data } :=
  parse_missing_section "X".data "Y".data "PT".data
    (by decide) (by decide) (by decide) (by decide) (by decide) (by decide)
    (by decide) (by decide) (by decide) (by decide) (by decide)

/-! ## Claim C8: URL extraction from replies -/

theorem spanP_all (p : Char → Bool) :
    ∀ x : List Char, (∀ c ∈ x, p c = true) → spanP p x = (x, []) := by
  intro x
  induction x with
  | nil => intro _; rfl
  | cons c x' ih =>
    intro h
    unfold spanP
    rw [h c (List.mem_cons_self c x'),
      ih (fun d hd => h d (List.mem_cons_of_mem _ hd))]
    rfl

theorem httpTokAt_guard (c : Char) (s : List Char) (h : c ≠ 'h') :
    httpTokAt (c :: s) = none := by
  unfold httpTokAt
  rw [show stripPfx "http".data (c :: s) = none from by
    unfold stripPfx; rw [if_neg h]]
  rfl

theorem urlPat0At_guard (c : Char) (s : List Char) (h : c ≠ 'U') :
    urlPat0At (c :: s) = none := by
  unfold urlPat0At
  rw [show stripPfx "URL:".data (c :: s) = none from by
    unfold stripPfx; rw [if_neg h]]
  rfl

theorem slashTok_all (path : List Char) (hp : path ≠ [])
    (hpath : ∀ c ∈ path, urlTokenChar c = true) :
    slashTok ('/' :: path) = some ('/' :: path) := by
  simp only [slashTok]
  rw [spanP_all urlTokenChar path hpath]
  dsimp only
  rw [if_neg (fun hh => hp (List.isEmpty_iff.mp hh))]

theorem hostSlashTok_arxiv (path : List Char) (hp : path ≠ [])
    (hpath : ∀ c ∈ path, urlTokenChar c = true) :
    hostSlashTok ("arxiv.org/".data ++ path) =
      some ("arxiv.org".data ++ ('/' :: path)) := by
  unfold hostSlashTok
  rw [show stripPfx "arxiv.org".data ("arxiv.org/".data ++ path) =
      some ('/' :: path) from rfl]
  simp only [Option.bind_eq_bind, Option.some_bind]
  rw [slashTok_all path hp hpath]
  rfl

theorem httpHostMatch_arxiv (path : List Char) (hp : path ≠ [])
    (hpath : ∀ c ∈ path, urlTokenChar c = true) :
    httpHostMatch ("https://arxiv.org/".data ++ path) =
      some ("https://".data ++ ("arxiv.org".data ++ ('/' :: path))) := by
  unfold httpHostMatch
  rw [show stripPfx "http".data ("https://arxiv.org/".data ++ path) =
      some ('s' :: ("://arxiv.org/".data ++ path)) from rfl]
  simp only [Option.bind_eq_bind, Option.some_bind]
  rw [show stripPfx "://".data ("://arxiv.org/".data ++ path) =
      some ("arxiv.org/".data ++ path) from rfl]
  simp only [Option.some_bind]
  rw [hostSlashTok_arxiv path hp hpath]
  rfl

theorem gapHttp_cons_fail (c : Char) (rest : List Char)
    (h : httpHostMatch (c :: rest) = none) (hc : c ≠ '\n') :
    gapHttp (c :: rest) = (gapHttp rest).map (fun (g, m) => (c :: g, m)) := by
  simp only [gapHttp, h]
  rw [if_neg hc]

theorem gapHttp_cons_hit (c : Char) (rest m : List Char)
    (h : httpHostMatch (c :: rest) = some m) :
    gapHttp (c :: rest) = some ([], m) := by
  simp only [gapHttp, h]

theorem gapHttp_arxiv (path : List Char) (hp : path ≠ [])
    (hpath : ∀ c ∈ path, urlTokenChar c = true) :
    gapHttp (" https://arxiv.org/".data ++ path) =
      some ([' '], "https://".data ++ ("arxiv.org".data ++ ('/' :: path))) := by
  rw [show (" https://arxiv.org/".data ++ path : List Char) =
      ' ' :: ("https://arxiv.org/".data ++ path) from rfl,
    gapHttp_cons_fail ' ' _ rfl (by decide),
    show ("https://arxiv.org/".data ++ path : List Char) =
      'h' :: ("ttps://arxiv.org/".data ++ path) from rfl,
    gapHttp_cons_hit 'h' ("ttps://arxiv.org/".data ++ path)
      ("https://".data ++ ("arxiv.org".data ++ ('/' :: path)))
      (httpHostMatch_arxiv path hp hpath)]
  rfl

theorem urlPat0At_arxiv (path : List Char) (hp : path ≠ [])
    (hpath : ∀ c ∈ path, urlTokenChar c = true) :
    urlPat0At ("URL: https://arxiv.org/".data ++ path) =
      some ("URL: https://arxiv.org/".data ++ path) := by
  unfold urlPat0At
  rw [show stripPfx "URL:".data ("URL: https://arxiv.org/".data ++ path) =
      some (" https://arxiv.org/".data ++ path) from rfl]
  simp only [Option.bind_eq_bind, Option.some_bind]
  rw [gapHttp_arxiv path hp hpath]
  rfl

theorem httpTokAt_arxiv (path : List Char) (_hp : path ≠ [])
    (hpath : ∀ c ∈ path, urlTokenChar c = true) :
    httpTokAt ("https://arxiv.org/".data ++ path) =
      some ("https://".data ++ ("arxiv.org/".data ++ path)) := by
  have hall : ∀ c ∈ ("arxiv.org/".data ++ path), urlTokenChar c = true := by
    intro c hc
    rcases List.mem_append.mp hc with h | h
    · fin_cases h <;> decide
    · exact hpath c h
  unfold httpTokAt
  rw [show stripPfx "http".data ("https://arxiv.org/".data ++ path) =
      some ('s' :: ("://arxiv.org/".data ++ path)) from rfl]
  simp only [Option.bind_eq_bind, Option.some_bind]
  rw [show stripPfx "://".data ("://arxiv.org/".data ++ path) =
      some ("arxiv.org/".data ++ path) from rfl]
  simp only [Option.some_bind]
  rw [spanP_all urlTokenChar _ hall]
  dsimp only
  rw [if_neg (by
    intro hh
    exact absurd (List.isEmpty_iff.mp hh) (by simp))]
  rfl

/-- C8 (amended).  Each scanned reply contributes at most one URL: the one
extracted from the first label-anchored match of its text.  A reply whose
text is the label `"URL: "` followed by a well-formed arXiv URL token
contributes exactly that URL, and a synthetic thread whose reply carries
`"URL: https://arxiv.org/abs/1234.5678"` yields exactly that URL in the
announced set.  Later occurrences in the same reply are ignored (see the
counterexample). -/
theorem url_extraction_first_label (path : List Char) (hp : path ≠ [])
    (hpath : ∀ c ∈ path, urlTokenChar c = true) :
    extractURL ("URL: https://arxiv.org/".data ++ path) =
      some ("https://arxiv.org/".data ++ path) ∧
    getLatestParentPaperUrls
      (.ok [⟨"📢 *最新のarXiv論文 - A*".data, 100, none⟩])
      (fun _ => .ok [⟨"URL: https://arxiv.org/abs/1234.5678".data, 101, some 100⟩]) =
      ["https://arxiv.org/abs/1234.5678".data] := by
  constructor
  · unfold extractURL
    rw [reSearch_of_matchAt urlPat0At _ _ (urlPat0At_arxiv path hp hpath)]
    simp only [Option.bind_eq_bind, Option.some_bind]
    rw [show ("URL: https://arxiv.org/".data ++ path : List Char) =
      "URL: ".data ++ ("https://arxiv.org/".data ++ path) from rfl]
    rw [reSearch_append_guard httpTokAt 'h' httpTokAt_guard _ _ (by decide)]
    exact reSearch_of_matchAt httpTokAt _ _ (httpTokAt_arxiv path hp hpath)
  · decide

/-- Counterexample to C8 as stated: occurrences after the first in the same
reply do not contribute — `re.search` yields one match per message, so the
second URL is absent from the announced set. -/
theorem url_second_occurrence_ignored :
    extractURL
        "URL: https://arxiv.org/abs/1234.5678 URL: https://arxiv.org/abs/9999.0001".data =
      some "https://arxiv.org/abs/1234.5678".data ∧
    "https://arxiv.org/abs/9999.0001".data ∉
      getLatestParentPaperUrls
        (.ok [⟨"📢 *最新のarXiv論文 - A*".data, 100, none⟩])
        (fun _ => .ok
          [⟨"URL: https://arxiv.org/abs/1234.5678 URL: https://arxiv.org/abs/9999.0001".data,
            101, some 100⟩]) := by
  constructor
  · decide
  · decide

/-- Witness for the amended C8 at the concrete path `abs/1234.5678`. -/
theorem url_extraction_first_label_witness :
    extractURL ("URL: https://arxiv.org/".data ++ "abs/1234.5678".data) =
      some ("https://arxiv.org/".data ++ "abs/1234.5678".data) ∧
    getLatestParentPaperUrls
      (.ok [⟨"📢 *最新のarXiv論文 - A*".data, 100, none⟩])
      (fun _ => .ok [⟨"URL: https://arxiv.org/abs/1234.5678".data, 101, some 100⟩]) =
      ["https://arxiv.org/abs/1234.5678".data] :=
  url_extraction_first_label "abs/1234.5678".data (by decide) (by decide)

end ArxivBot
